import Mathlib

/-!
Shallow embedding of the RAG chatbot starter kit (enhanced-rag-chain.js,
rag-chat-app/api-server.js, and the wiki-to-Pinecone ingestion script).

The JavaScript sources are straight-line orchestration code; this file
models them as pure Lean functions.  Mutable state (the module-level
`conversationHistories` map, the Pinecone index partitions, the server's
`activeSessions` set) is threaded explicitly.  JavaScript exceptions are
modelled with `Except`, carrying the state alive at throw time.  JS
numbers that appear as similarity scores are modelled with `Rat`.
-/

namespace RagRepo

/-! ## Conversation history (enhanced-rag-chain.js, lines 18-55) -/

/-- One entry of a conversation history: `{ role, content }`. -/
structure Message where
  role : String
  content : String
deriving DecidableEq, Repr

/-- The module-level `conversationHistories` map: session id to stored
history.  `none` means the session is not in the map. -/
abbrev Histories := String → Option (List Message)

/-- Initial, empty `conversationHistories` map. -/
def emptyHistories : Histories := fun _ => none

/-- `getOrCreateConversationHistory` (lines 22-28): if the session id is
absent, insert an empty history, then return the (possibly updated) map
together with the stored history. -/
def getOrCreateConversationHistory (m : Histories) (sessionId : String) :
    Histories × List Message :=
  match m sessionId with
  | some h => (m, h)
  | none => (fun s => if s = sessionId then some [] else m s, [])

/-- `addMessageToHistory` (lines 31-41): push `{role, content}` onto the
session's history; if the length then exceeds 10, `shift()` drops the
oldest (front) entry.  The map entry is updated in place in JS; here the
updated map is returned together with the resulting history. -/
def addMessageToHistory (m : Histories) (sessionId role content : String) :
    Histories × List Message :=
  let gc := getOrCreateConversationHistory m sessionId
  let mGot := gc.1
  let pushed := gc.2 ++ [({ role := role, content := content } : Message)]
  let trimmed := if pushed.length > 10 then pushed.tail else pushed
  (fun s => if s = sessionId then some trimmed else mGot s, trimmed)

/-- Helper used by the pipeline and by `joinSep` below:
`Array.prototype.join(sep)`. -/
def joinSep (sep : String) : List String → String
  | [] => ""
  | [s] => s
  | s :: rest => s ++ sep ++ joinSep sep rest

/-- `formatConversationHistory` (lines 44-55). -/
def formatConversationHistory (history : List Message) : String :=
  if history.length = 0 then "No previous conversation."
  else
    joinSep "\n\n"
      (history.map fun message =>
        (if message.role = "human" then "User" else "Assistant") ++ ": " ++
          message.content)

/-- Replay a sequence of `addMessageToHistory` calls
`(sessionId, role, content)` starting from the empty map. -/
def runAdds (calls : List (String × String × String)) : Histories :=
  calls.foldl (fun m c => (addMessageToHistory m c.1 c.2.1 c.2.2).1)
    emptyHistories

/-- The ≤ 10 invariant on a whole `conversationHistories` map. -/
def capped (m : Histories) : Prop :=
  ∀ s h, m s = some h → h.length ≤ 10

lemma capped_empty : capped emptyHistories := by
  intro s h hs
  simp [emptyHistories] at hs

lemma addMessageToHistory_apply (m : Histories) (sessionId role content s : String) :
    (addMessageToHistory m sessionId role content).1 s =
      if s = sessionId
      then some
        (if ((getOrCreateConversationHistory m sessionId).2 ++
              [({ role := role, content := content } : Message)]).length > 10
         then ((getOrCreateConversationHistory m sessionId).2 ++
              [({ role := role, content := content } : Message)]).tail
         else (getOrCreateConversationHistory m sessionId).2 ++
              [({ role := role, content := content } : Message)])
      else (getOrCreateConversationHistory m sessionId).1 s := rfl

lemma getOrCreate_snd_capped (m : Histories) (sessionId : String) (hm : capped m) :
    (getOrCreateConversationHistory m sessionId).2.length ≤ 10 := by
  rcases hmem : m sessionId with _ | h0
  · simp [getOrCreateConversationHistory, hmem]
  · simpa [getOrCreateConversationHistory, hmem] using hm sessionId h0 hmem

lemma getOrCreate_fst_capped (m : Histories) (sessionId : String) (hm : capped m) :
    capped (getOrCreateConversationHistory m sessionId).1 := by
  intro s h hs
  rcases hmem : m sessionId with _ | h0
  · simp only [getOrCreateConversationHistory, hmem] at hs
    by_cases hsid : s = sessionId
    · rw [if_pos hsid] at hs
      cases hs
      simp
    · rw [if_neg hsid] at hs
      exact hm s h hs
  · simp only [getOrCreateConversationHistory, hmem] at hs
    exact hm s h hs

lemma capped_addMessageToHistory (m : Histories) (sessionId role content : String)
    (hm : capped m) : capped (addMessageToHistory m sessionId role content).1 := by
  intro s h hs
  rw [addMessageToHistory_apply] at hs
  by_cases hsid : s = sessionId
  · rw [if_pos hsid] at hs
    injection hs with hs
    subst hs
    have h2 := getOrCreate_snd_capped m sessionId hm
    have hp : ((getOrCreateConversationHistory m sessionId).2 ++
        [({ role := role, content := content } : Message)]).length
        = (getOrCreateConversationHistory m sessionId).2.length + 1 := by simp
    split_ifs with hgt
    · rw [List.length_tail]
      omega
    · omega
  · rw [if_neg hsid] at hs
    exact getOrCreate_fst_capped m sessionId hm s h hs

lemma capped_runAdds_aux (calls : List (String × String × String)) :
    ∀ m : Histories, capped m →
      capped (calls.foldl
        (fun m c => (addMessageToHistory m c.1 c.2.1 c.2.2).1) m) := by
  induction calls with
  | nil => intro m hm; exact hm
  | cons c rest ih =>
    intro m hm
    exact ih _ (capped_addMessageToHistory m c.1 c.2.1 c.2.2 hm)

/-- C1: For every session and every sequence of `addMessageToHistory`
calls, the conversation history stored for that session never exceeds ten
entries: whenever a push would make the length exceed ten, the oldest
message is shifted off, so every stored array has length ≤ 10. -/
theorem history_capped_at_ten (calls : List (String × String × String))
    (s : String) (h : List Message) (hs : runAdds calls s = some h) :
    h.length ≤ 10 :=
  capped_runAdds_aux calls emptyHistories capped_empty s h hs

/-- Witness for C1, at a concrete run of twelve calls on session "a". -/
theorem history_capped_at_ten_witness :
    runAdds (List.replicate 12 ("a", "human", "x")) "a"
        = some (List.replicate 10 { role := "human", content := "x" }) ∧
      (List.replicate 10 ({ role := "human", content := "x" } : Message)).length
        ≤ 10 :=
  ⟨by decide,
   history_capped_at_ten (List.replicate 12 ("a", "human", "x")) "a"
     (List.replicate 10 { role := "human", content := "x" }) (by decide)⟩

/-- C5: the conversation histories form a per-session mapping: adding a
message to session `sessionId` leaves every other session's map entry
unchanged. -/
theorem addMessageToHistory_frame (m : Histories) (sessionId role content t : String)
    (ht : t ≠ sessionId) :
    (addMessageToHistory m sessionId role content).1 t = m t := by
  simp only [addMessageToHistory, getOrCreateConversationHistory]
  cases hmem : m sessionId with
  | none => simp [hmem, if_neg ht]
  | some h0 => simp [hmem, if_neg ht]

/-- Witness for C5, at concrete distinct sessions "a" and "b". -/
theorem addMessageToHistory_frame_witness :
    (addMessageToHistory (runAdds [("b", "human", "y")] ) "a" "human" "x").1 "b"
      = some [{ role := "human", content := "y" }] := by
  have hb : ("b" : String) ≠ "a" := by decide
  have hframe :=
    addMessageToHistory_frame (runAdds [("b", "human", "y")]) "a" "human" "x" "b" hb
  rw [hframe]
  decide

/-! ## Documents and hybrid search (enhanced-rag-chain.js, lines 57-134) -/

/-- The metadata fields the pipeline reads.  `none` models an absent JS
property; similarity scores are modelled with `Rat`. -/
structure DocMetadata where
  source : Option String
  title : Option String
  category : Option String
  score : Option Rat
deriving DecidableEq, Repr

/-- A LangChain document: `pageContent` plus metadata. -/
structure Doc where
  pageContent : String
  metadata : DocMetadata
deriving DecidableEq, Repr

/-- JS `a || b` on an optional string: an absent or empty (falsy) `a`
falls through to `b`. -/
def jsOrStr (a : Option String) (b : String) : String :=
  match a with
  | some s => if s = "" then b else s
  | none => b

/-- `doc.metadata.source || doc.metadata.title || "Unknown"` (lines 90, 103). -/
def sourceName (metadata : DocMetadata) : String :=
  jsOrStr metadata.source (jsOrStr metadata.title "Unknown")

/-- The score the sort comparator reads.  Every document processed by
`hybridSearch` carries `some` score; `getD 0` only totalizes the model. -/
def scoreOf (doc : Doc) : Rat :=
  (doc.metadata.score).getD 0

/-- Ordering used by `processedDocs.sort((a, b) => a.metadata.score -
b.metadata.score)` (line 86): ascending by score. -/
def docScoreLe : Doc → Doc → Prop :=
  fun a b => scoreOf a ≤ scoreOf b

instance : DecidableRel docScoreLe :=
  fun a b => inferInstanceAs (Decidable (scoreOf a ≤ scoreOf b))

instance : IsTotal Doc docScoreLe := ⟨fun a b => le_total (scoreOf a) (scoreOf b)⟩

instance : IsTrans Doc docScoreLe := ⟨fun _ _ _ => le_trans⟩

/-- lines 73-83: `{...doc, metadata: {...doc.metadata, score}, pageContent:
doc.pageContent}` for one `[doc, score]` tuple. -/
def addScoreToDoc (p : Doc × Rat) : Doc :=
  { p.1 with metadata := { p.1.metadata with score := some p.2 } }

/-- The object `hybridSearch` returns: `{documents, sources}`. -/
structure SearchResults where
  documents : List Doc
  sources : List String
deriving DecidableEq, Repr

/-- Pure tail of `hybridSearch` (lines 72-105): copy each score into its
document's metadata, sort ascending by score (a stable comparison sort
models `Array.prototype.sort` with the numeric comparator), and read each
document's source name off. -/
def processSearchResults (resultsWithScores : List (Doc × Rat)) : SearchResults :=
  let processedDocs :=
    List.insertionSort docScoreLe (resultsWithScores.map addScoreToDoc)
  { documents := processedDocs,
    sources := processedDocs.map fun doc => sourceName doc.metadata }

/-- `hybridSearch` (lines 59-106): a single call to
`vectorStore.similaritySearchWithScore(query, k)` — modelled by the
`search` parameter — followed by the pure post-processing above.  The
console logging has no observable effect and is omitted. -/
def hybridSearch (search : String → Nat → Except String (List (Doc × Rat)))
    (query : String) (k : Nat := 12) : Except String SearchResults :=
  match search query k with
  | .error e => .error e
  | .ok resultsWithScores => .ok (processSearchResults resultsWithScores)

/-- C2: `hybridSearch` performs only the single semantic similarity
search: whenever `vectorStore.similaritySearchWithScore(query, k)` yields
`resultsWithScores`, the returned documents are exactly those results —
each with its score copied into the document's metadata, nothing added or
removed (the code only reorders them by score) — and the sources are read
off those same documents. -/
theorem hybridSearch_single_semantic_search
    (search : String → Nat → Except String (List (Doc × Rat)))
    (query : String) (k : Nat) (resultsWithScores : List (Doc × Rat))
    (hs : search query k = .ok resultsWithScores) :
    ∃ r : SearchResults,
      hybridSearch search query k = .ok r ∧
        r.documents.Perm (resultsWithScores.map addScoreToDoc) ∧
        r.sources = r.documents.map fun doc => sourceName doc.metadata := by
  refine ⟨processSearchResults resultsWithScores, ?_, ?_, rfl⟩
  · simp [hybridSearch, hs]
  · exact List.perm_insertionSort docScoreLe (resultsWithScores.map addScoreToDoc)

/-- Sample documents used by concrete witnesses. -/
def docA : Doc :=
  { pageContent := "alpha content",
    metadata := { source := some "a.md", title := some "Alpha",
                  category := none, score := none } }

/-- Second sample document (no source, empty title: falls through to
"Unknown"). -/
def docB : Doc :=
  { pageContent := "beta content",
    metadata := { source := none, title := some "",
                  category := some "General", score := none } }

/-- A vector store stub returning two scored documents, out of order. -/
def sampleSearch : String → Nat → Except String (List (Doc × Rat)) :=
  fun _ _ => .ok [(docA, 2), (docB, 1)]

/-- Witness for C2 at the concrete stub store. -/
theorem hybridSearch_single_semantic_search_witness :
    ∃ r : SearchResults,
      hybridSearch sampleSearch "q" 12 = .ok r ∧
        r.documents.Perm ([(docA, (2 : Rat)), (docB, 1)].map addScoreToDoc) ∧
        r.sources = r.documents.map fun doc => sourceName doc.metadata :=
  hybridSearch_single_semantic_search sampleSearch "q" 12 [(docA, 2), (docB, 1)]
    rfl

/-- C9: the documents `hybridSearch` returns are sorted in non-decreasing
order of `metadata.score`, and the sources list is the pointwise image of
the documents list under `source`-else-`title`-else-"Unknown" (so it has
the same length, and entry `i` names entry `i` of the documents). -/
theorem hybridSearch_sorted_and_sources
    (search : String → Nat → Except String (List (Doc × Rat)))
    (query : String) (k : Nat) (resultsWithScores : List (Doc × Rat))
    (hs : search query k = .ok resultsWithScores) :
    ∃ r : SearchResults,
      hybridSearch search query k = .ok r ∧
        List.Sorted docScoreLe r.documents ∧
        r.sources.length = r.documents.length ∧
        r.sources = r.documents.map fun doc =>
          jsOrStr doc.metadata.source (jsOrStr doc.metadata.title "Unknown") := by
  refine ⟨processSearchResults resultsWithScores, ?_, ?_, ?_, rfl⟩
  · simp [hybridSearch, hs]
  · exact List.sorted_insertionSort docScoreLe (resultsWithScores.map addScoreToDoc)
  · simp [processSearchResults]

/-- Witness for C9 at the concrete stub store. -/
theorem hybridSearch_sorted_and_sources_witness :
    ∃ r : SearchResults,
      hybridSearch sampleSearch "q" 12 = .ok r ∧
        List.Sorted docScoreLe r.documents ∧
        r.sources.length = r.documents.length ∧
        r.sources = r.documents.map fun doc =>
          jsOrStr doc.metadata.source (jsOrStr doc.metadata.title "Unknown") :=
  hybridSearch_sorted_and_sources sampleSearch "q" 12 [(docA, 2), (docB, 1)]
    rfl

/-! ## Context formatting and the prompt (enhanced-rag-chain.js, lines 108-242) -/

/-- Left-pad a numeral with zeros to `k` digits. -/
def padZeros (k n : Nat) : String :=
  String.mk (List.replicate (k - (toString n).length) '0') ++ toString n

/-- `Number.prototype.toFixed(4)` on a rational score: round to the
nearest ten-thousandth (ties towards the larger value, as the ECMAScript
algorithm picks the larger candidate) and print with exactly four
decimals.  `fdiv` is floor division; the fraction is `q*10000 + 1/2`. -/
def jsToFixed4 (q : Rat) : String :=
  let scaled : Int := Int.fdiv (q.num * 20000 + (q.den : Int)) (2 * (q.den : Int))
  let sign := if scaled < 0 then "-" else ""
  let a := scaled.natAbs
  sign ++ toString (a / 10000) ++ "." ++ padZeros 4 (a % 10000)

/-- One entry of the map inside `formatDocumentsWithSourcesAsString`
(lines 113-127): metadata header in brackets, newline, the page content.
`category` is computed in the source but never used in the output; the
`score ? ... : ""` test is JS truthiness, so a score of 0 also yields the
empty relevance string. -/
def docBlock (index : Nat) (document : Doc) : String :=
  let source := jsOrStr document.metadata.source "Unknown"
  let title := jsOrStr document.metadata.title source
  let relevance :=
    match document.metadata.score with
    | some s => if s = 0 then "" else "Relevance: " ++ jsToFixed4 s
    | none => ""
  let metadataStr := "Document " ++ toString (index + 1) ++ " | Source: " ++
    source ++ " | Title: " ++ title ++ " | " ++ relevance
  "[" ++ metadataStr ++ "]\n" ++ document.pageContent

/-- `formatDocumentsWithSourcesAsString` (lines 109-129): map each
document (with its index) to its block and join with blank lines. -/
def formatDocumentsWithSourcesAsString (searchResults : SearchResults) : String :=
  joinSep "\n\n"
    (searchResults.documents.mapIdx fun index document => docBlock index document)

/-- `extractSources` (lines 132-134). -/
def extractSources (searchResults : SearchResults) : List String :=
  searchResults.sources

/-- `SYSTEM_TEMPLATE` (lines 211-237), the part before the
`conversationHistory` placeholder. -/
def systemTemplateBeforeHistory : String :=
  "You are a helpful assistant for Amsterdam Standard company.\n" ++
  "Use the following pieces of context and conversation history to answer the question at the end.\n" ++
  "If you don\x27t know the answer, just say that you don\x27t know, don\x27t try to make up an answer.\n" ++
  "Keep your answers informative and concise.\n\n" ++
  "IMPORTANT ABOUT RELEVANCE:\n" ++
  "- Each document includes a relevance score - lower scores indicate higher relevance\n" ++
  "- Documents are already sorted by relevance (most relevant first)\n" ++
  "- When answering, prioritize information from documents with lower relevance scores\n" ++
  "- For comprehensive questions (like those about all offices or locations), be sure to include ALL relevant information\n\n" ++
  "ABOUT MULTILINGUAL SUPPORT:\n" ++
  "- Users may ask questions in different languages, particularly in Polish, but the database is in English\n" ++
  "- If a question is asked in Polish, respond in Polish, but think in English\n" ++
  "- If a question is asked in English, respond in English\n" ++
  "- Always maintain the same level of helpfulness regardless of the language used\n\n" ++
  "CONVERSATION HISTORY:\n"

/-- `SYSTEM_TEMPLATE`, the part between the `conversationHistory` and
`context` placeholders. -/
def systemTemplateAfterHistory : String :=
  "\n\nWhen synthesizing information, ensure you\x27re providing complete and accurate answers by considering ALL the relevant documents in the context.\n\n" ++
  "At the end of your answer, include a \"Sources:\" section that lists the document sources used.\n\n" ++
  "Context:\n----------------\n"

/-- The system message after `ChatPromptTemplate` substitutes the two
placeholders. -/
def promptSystem (conversationHistory context : String) : String :=
  systemTemplateBeforeHistory ++ conversationHistory ++
    systemTemplateAfterHistory ++ context

/-- The message list `prompt.invoke({question, context,
conversationHistory})` produces (lines 239-242, 266-270): the substituted
system message and the human message `{question}`. -/
structure PromptMessages where
  system : String
  human : String
deriving DecidableEq, Repr

/-- `prompt.invoke` (lines 266-270). -/
def promptInvoke (question context conversationHistory : String) : PromptMessages :=
  { system := promptSystem conversationHistory context, human := question }

/-! ## The RAG chain and its callers (enhanced-rag-chain.js, lines 245-380) -/

/-- The object the chain returns: `{answer, sources}`. -/
structure RagResult where
  answer : String
  sources : List String
deriving DecidableEq, Repr

/-- The `chain` closure (lines 245-284).  `search` models
`vectorStore.similaritySearchWithScore`, `llm` models
`chatModel.invoke` followed by reading `response.content`; either may
throw.  An error carries the `conversationHistories` map alive at throw
time (the `getOrCreateConversationHistory` insertion is not rolled
back). -/
def chainE (search : String → Nat → Except String (List (Doc × Rat)))
    (llm : PromptMessages → Except String String)
    (m : Histories) (question sessionId : String) :
    Except (String × Histories) (Histories × RagResult) :=
  let gc := getOrCreateConversationHistory m sessionId
  let mGot := gc.1
  let conversationHistory := gc.2
  match hybridSearch search question 12 with
  | .error e => .error (e, mGot)
  | .ok searchResults =>
    let formattedContext := formatDocumentsWithSourcesAsString searchResults
    let sources := extractSources searchResults
    let formattedHistory := formatConversationHistory conversationHistory
    let messages := promptInvoke question formattedContext formattedHistory
    match llm messages with
    | .error e => .error (e, mGot)
    | .ok content =>
      let m2 := (addMessageToHistory mGot sessionId "human" question).1
      let m3 := (addMessageToHistory m2 sessionId "assistant" content).1
      .ok (m3, { answer := content, sources := sources })

/-- The constant object the `catch` of `answerQuestionWithSources`
returns (lines 321-327). -/
def fallbackResult : RagResult :=
  { answer := "Sorry, I couldn\x27t process your question due to an error.",
    sources := [] }

/-- `answerQuestionWithSources` (lines 295-328).  `create` models
`createEnhancedRagChain`, which can itself throw (missing environment
variables) before any search runs.  The whole body sits in one `try`; the
`catch` only logs and returns `fallbackResult`, leaving the histories map
exactly as it was when the error was thrown.  On success the function
re-reads the session history for logging (line 313), which is modelled by
the extra `getOrCreateConversationHistory` call. -/
def answerQuestionWithSources (create : Except String Unit)
    (search : String → Nat → Except String (List (Doc × Rat)))
    (llm : PromptMessages → Except String String)
    (m : Histories) (question sessionId : String) : Histories × RagResult :=
  match create with
  | .error _ => (m, fallbackResult)
  | .ok _ =>
    match chainE search llm m question sessionId with
    | .error (_, mAfter) => (mAfter, fallbackResult)
    | .ok (mAfter, result) =>
      let gc := getOrCreateConversationHistory mAfter sessionId
      (gc.1, result)

/-- The response object `askQuestion` builds (lines 360-368 and
372-378): optional fields are absent on the branch that does not set
them.  `timestamp` is the caller-supplied clock reading. -/
structure ApiResponse where
  status : String
  sessionId : String
  question : String
  answer : Option String
  sources : Option (List String)
  historyLength : Option Nat
  error : Option String
  timestamp : String
deriving DecidableEq, Repr

/-- `askQuestion` (lines 352-380).  Its `try` wraps a call to the total
function `answerQuestionWithSources` plus a history lookup, so the
success branch is the whole function. -/
def askQuestion (create : Except String Unit)
    (search : String → Nat → Except String (List (Doc × Rat)))
    (llm : PromptMessages → Except String String)
    (m : Histories) (question sessionId now : String) : Histories × ApiResponse :=
  let aq := answerQuestionWithSources create search llm m question sessionId
  let m1 := aq.1
  let result := aq.2
  let gc := getOrCreateConversationHistory m1 sessionId
  (gc.1,
   { status := "success", sessionId := sessionId, question := question,
     answer := some result.answer, sources := some result.sources,
     historyLength := some gc.2.length, error := none, timestamp := now })

/-- The body the unreachable `catch` branch of `askQuestion` would build
(lines 369-379). -/
def askQuestionCatchBody (question sessionId now : String) : ApiResponse :=
  { status := "error", sessionId := sessionId, question := question,
    answer := none, sources := none, historyLength := none,
    error := some "Failed to process your question. Please try again later.",
    timestamp := now }

/-- C3: the chain is the linear sequence search → format → prompt →
generate → track history.  When the single retrieval call yields
`resultsWithScores` and the model call on the prompt built from the
question, the formatted context, and the formatted session history yields
`content`, the chain returns `{answer: content, sources: <the retrieval
sources>}` and the new map stores the session history with the question
and then the answer appended (via `addMessageToHistory`). -/
theorem chain_linear_pipeline
    (search : String → Nat → Except String (List (Doc × Rat)))
    (llm : PromptMessages → Except String String)
    (m : Histories) (question sessionId : String)
    (resultsWithScores : List (Doc × Rat)) (content : String)
    (hs : search question 12 = .ok resultsWithScores)
    (hl : llm (promptInvoke question
        (formatDocumentsWithSourcesAsString (processSearchResults resultsWithScores))
        (formatConversationHistory
          (getOrCreateConversationHistory m sessionId).2)) = .ok content) :
    chainE search llm m question sessionId = .ok
      ((addMessageToHistory
          (addMessageToHistory
            (getOrCreateConversationHistory m sessionId).1
            sessionId "human" question).1
          sessionId "assistant" content).1,
       { answer := content,
         sources := (processSearchResults resultsWithScores).sources }) := by
  simp [chainE, hybridSearch, hs, hl, extractSources]

/-- Witness for C3 at the stub store and a constant model. -/
theorem chain_linear_pipeline_witness :
    chainE sampleSearch (fun _ => .ok "ans") emptyHistories "q" "s" = .ok
      ((addMessageToHistory
          (addMessageToHistory
            (getOrCreateConversationHistory emptyHistories "s").1
            "s" "human" "q").1
          "s" "assistant" "ans").1,
       { answer := "ans",
         sources := (processSearchResults [(docA, 2), (docB, 1)]).sources }) :=
  chain_linear_pipeline sampleSearch (fun _ => .ok "ans") emptyHistories "q" "s"
    [(docA, 2), (docB, 1)] "ans" rfl rfl

/-- C4: the question-answering pipeline has no failure recovery beyond
catch-and-log.  Whether the error is thrown while creating the chain or
by any step inside the chain, `answerQuestionWithSources` returns the
constant fallback object and leaves the histories map exactly as it was
at throw time — no retry, no rollback, no other action. -/
theorem answer_catch_and_log_only
    (search : String → Nat → Except String (List (Doc × Rat)))
    (llm : PromptMessages → Except String String)
    (m : Histories) (question sessionId : String) :
    (∀ e, answerQuestionWithSources (.error e) search llm m question sessionId
        = (m, fallbackResult)) ∧
    (∀ e mErr, chainE search llm m question sessionId = .error (e, mErr) →
      answerQuestionWithSources (.ok ()) search llm m question sessionId
        = (mErr, fallbackResult)) := by
  constructor
  · intro e
    rfl
  · intro e mErr h
    simp [answerQuestionWithSources, h]

/-- A vector store stub whose search call always throws. -/
def failingSearch : String → Nat → Except String (List (Doc × Rat)) :=
  fun _ _ => .error "pinecone down"

/-- Witness for C4 at a concrete failing search. -/
theorem answer_catch_and_log_only_witness :
    answerQuestionWithSources (.ok ()) failingSearch (fun _ => .ok "")
        emptyHistories "q" "s"
      = ((getOrCreateConversationHistory emptyHistories "s").1, fallbackResult) :=
  (answer_catch_and_log_only failingSearch (fun _ => .ok "")
      emptyHistories "q" "s").2
    "pinecone down" (getOrCreateConversationHistory emptyHistories "s").1 rfl

/-- C8: `askQuestion` never returns an error response.  Because
`answerQuestionWithSources` is total (its `try` spans its whole body and
the `catch` returns the fallback object), the `catch` branch of
`askQuestion` is unreachable: for every input — including ones whose
pipeline fails — the response has status "success", carries no error
field, and is never the catch branch's body. -/
theorem askQuestion_always_success (create : Except String Unit)
    (search : String → Nat → Except String (List (Doc × Rat)))
    (llm : PromptMessages → Except String String)
    (m : Histories) (question sessionId now : String) :
    (askQuestion create search llm m question sessionId now).2.status = "success" ∧
    (askQuestion create search llm m question sessionId now).2.error = none ∧
    (askQuestion create search llm m question sessionId now).2
      ≠ askQuestionCatchBody question sessionId now := by
  refine ⟨rfl, rfl, fun h => ?_⟩
  have h2 : ("success" : String) = "error" := congrArg ApiResponse.status h
  simp at h2

/-! ## Substring containment, for the context-conditioning claim -/

/-- `needle` occurs contiguously inside `haystack`. -/
def strContains (haystack needle : String) : Prop :=
  needle.data <:+: haystack.data

lemma joinSep_cons_cons (sep y z : String) (t : List String) :
    joinSep sep (y :: z :: t) = y ++ sep ++ joinSep sep (z :: t) := rfl

lemma strContains_joinSep (sep : String) :
    ∀ (l : List String) (x : String), x ∈ l → strContains (joinSep sep l) x := by
  intro l
  induction l with
  | nil =>
    intro x hx
    cases hx
  | cons y rest ih =>
    intro x hx
    cases rest with
    | nil =>
      have hxy : x = y := by simpa using hx
      subst hxy
      exact List.infix_rfl
    | cons z t =>
      rcases List.mem_cons.mp hx with hxy | hx2
      · subst hxy
        unfold strContains
        rw [joinSep_cons_cons, String.data_append, String.data_append,
          List.append_assoc]
        exact (List.prefix_append x.data _).isInfix
      · refine List.IsInfix.trans (ih x hx2) ?_
        rw [joinSep_cons_cons, String.data_append]
        exact (List.suffix_append _ _).isInfix

lemma docBlock_mem_mapIdx (documents : List Doc) (i : Nat)
    (hi : i < documents.length) :
    docBlock i (documents.get ⟨i, hi⟩) ∈
      documents.mapIdx fun index document => docBlock index document := by
  have hlen : i < (documents.mapIdx fun index document =>
      docBlock index document).length := by
    rw [List.length_mapIdx]
    exact hi
  have hidx := List.getElem_mapIdx
    (l := documents) (f := fun index document => docBlock index document)
    (i := i) (h := hlen)
  have h2 := List.getElem_mem hlen
  rw [hidx] at h2
  exact h2

lemma docBlock_eq (index : Nat) (document : Doc) :
    docBlock index document =
      "[" ++ ("Document " ++ toString (index + 1) ++ " | Source: " ++
        jsOrStr document.metadata.source "Unknown" ++ " | Title: " ++
        jsOrStr document.metadata.title (jsOrStr document.metadata.source "Unknown") ++
        " | " ++
        (match document.metadata.score with
         | some s => if s = 0 then "" else "Relevance: " ++ jsToFixed4 s
         | none => "")) ++ "]\n" ++ document.pageContent := rfl

lemma pageContent_suffix_docBlock (index : Nat) (document : Doc) :
    document.pageContent.data <:+ (docBlock index document).data := by
  rw [docBlock_eq, String.data_append]
  exact List.suffix_append _ _

/-- C7: generation is conditioned on the retrieved text.  The context
string contains, for every retrieved document, its full `pageContent`
preceded by its bracketed metadata header (document number, source,
title, relevance); the system message substitutes that context string
whole; and the chain invokes the model on exactly the prompt built from
the question, that context string, and the formatted history. -/
theorem context_conditions_generation
    (searchResults : SearchResults) (i : Nat)
    (hi : i < searchResults.documents.length)
    (search : String → Nat → Except String (List (Doc × Rat)))
    (llm : PromptMessages → Except String String)
    (m : Histories) (question sessionId : String)
    (resultsWithScores : List (Doc × Rat)) (content : String)
    (hs : search question 12 = .ok resultsWithScores)
    (hl : llm (promptInvoke question
        (formatDocumentsWithSourcesAsString (processSearchResults resultsWithScores))
        (formatConversationHistory
          (getOrCreateConversationHistory m sessionId).2)) = .ok content) :
    strContains (formatDocumentsWithSourcesAsString searchResults)
        (docBlock i (searchResults.documents.get ⟨i, hi⟩)) ∧
    strContains (formatDocumentsWithSourcesAsString searchResults)
        (searchResults.documents.get ⟨i, hi⟩).pageContent ∧
    (∀ ctx conversationHistory : String,
      strContains (promptInvoke question ctx conversationHistory).system ctx) ∧
    chainE search llm m question sessionId = .ok
      ((addMessageToHistory
          (addMessageToHistory
            (getOrCreateConversationHistory m sessionId).1
            sessionId "human" question).1
          sessionId "assistant" content).1,
       { answer := content,
         sources := (processSearchResults resultsWithScores).sources }) := by
  have hblock : strContains (formatDocumentsWithSourcesAsString searchResults)
      (docBlock i (searchResults.documents.get ⟨i, hi⟩)) :=
    strContains_joinSep "\n\n" _ _
      (docBlock_mem_mapIdx searchResults.documents i hi)
  refine ⟨hblock, ?_, ?_, ?_⟩
  · exact List.IsInfix.trans
      (pageContent_suffix_docBlock i (searchResults.documents.get ⟨i, hi⟩)).isInfix
      hblock
  · intro ctx conversationHistory
    show ctx.data <:+:
      (systemTemplateBeforeHistory ++ conversationHistory ++
        systemTemplateAfterHistory ++ ctx).data
    rw [String.data_append]
    exact (List.suffix_append _ _).isInfix
  · simp [chainE, hybridSearch, hs, hl, extractSources]

/-- Witness for C7 at the stub store's processed results. -/
theorem context_conditions_generation_witness :
    strContains
        (formatDocumentsWithSourcesAsString
          (processSearchResults [(docA, 2), (docB, 1)]))
        (docBlock 0
          ((processSearchResults [(docA, 2), (docB, 1)]).documents.get
            ⟨0, by decide⟩)) ∧
    strContains
        (formatDocumentsWithSourcesAsString
          (processSearchResults [(docA, 2), (docB, 1)]))
        ((processSearchResults [(docA, 2), (docB, 1)]).documents.get
          ⟨0, by decide⟩).pageContent ∧
    (∀ ctx conversationHistory : String,
      strContains (promptInvoke "q" ctx conversationHistory).system ctx) ∧
    chainE sampleSearch (fun _ => .ok "ans") emptyHistories "q" "s" = .ok
      ((addMessageToHistory
          (addMessageToHistory
            (getOrCreateConversationHistory emptyHistories "s").1
            "s" "human" "q").1
          "s" "assistant" "ans").1,
       { answer := "ans",
         sources := (processSearchResults [(docA, 2), (docB, 1)]).sources }) :=
  context_conditions_generation
    (processSearchResults [(docA, 2), (docB, 1)]) 0 (by decide)
    sampleSearch (fun _ => .ok "ans") emptyHistories "q" "s"
    [(docA, 2), (docB, 1)] "ans" rfl rfl

/-! ## API server (rag-chat-app/api-server.js) -/

/-- Server state: the `activeSessions` set (insertion-ordered, no
duplicates) and the RAG module's histories map. -/
structure ServerState where
  activeSessions : List String
  histories : Histories

/-- A parsed `POST /ask` body; `none` models an absent field. -/
structure AskRequestBody where
  question : Option String
  sessionId : Option String

/-- A JSON response body: either the `askQuestion` result or an
inline `{status, error}` object. -/
inductive HttpBody where
  | json (r : ApiResponse)
  | errJson (status error : String)
deriving DecidableEq

/-- An HTTP response: status code plus JSON body. -/
structure HttpResponse where
  code : Nat
  body : HttpBody
deriving DecidableEq

/-- `Set.prototype.add`. -/
def addSession (sessions : List String) (s : String) : List String :=
  if s ∈ sessions then sessions else sessions ++ [s]

/-- The `POST /ask` handler (api-server.js, lines 22-54).  `gen` is the
value `generateSessionId()` would produce (it is evaluated during
destructuring when the body carries no session id); `now` is the clock.
A missing — or, by JS falsiness, empty — question short-circuits to a
400 before the session is tracked or the chain is invoked; otherwise the
session id is added to `activeSessions` and `askQuestion` runs. -/
def askHandler (create : Except String Unit)
    (search : String → Nat → Except String (List (Doc × Rat)))
    (llm : PromptMessages → Except String String)
    (st : ServerState) (req : AskRequestBody) (gen now : String) :
    ServerState × HttpResponse :=
  let sessionId := match req.sessionId with
    | some s => s
    | none => gen
  match req.question with
  | none => (st, { code := 400, body := .errJson "error" "Question is required" })
  | some question =>
    if question = "" then
      (st, { code := 400, body := .errJson "error" "Question is required" })
    else
      let sessions := addSession st.activeSessions sessionId
      let aq := askQuestion create search llm st.histories question sessionId now
      ({ activeSessions := sessions, histories := aq.1 },
       { code := 200, body := .json aq.2 })

/-- C10: a `POST /ask` whose body has no `question` field gets HTTP 400
with body `{status: "error", error: "Question is required"}`, and the
server state is returned untouched: `activeSessions` gains nothing and
the RAG chain is never invoked, so no conversation history is created or
modified. -/
theorem askHandler_missing_question (create : Except String Unit)
    (search : String → Nat → Except String (List (Doc × Rat)))
    (llm : PromptMessages → Except String String)
    (st : ServerState) (req : AskRequestBody) (gen now : String)
    (hq : req.question = none) :
    askHandler create search llm st req gen now =
      (st, { code := 400, body := .errJson "error" "Question is required" }) := by
  simp [askHandler, hq]

/-- Witness for C10 at a concrete question-less request. -/
theorem askHandler_missing_question_witness :
    askHandler (.ok ()) sampleSearch (fun _ => .ok "ans")
        { activeSessions := [], histories := emptyHistories }
        { question := none, sessionId := some "s" } "gen" "now" =
      ({ activeSessions := [], histories := emptyHistories },
       { code := 400, body := .errJson "error" "Question is required" }) :=
  askHandler_missing_question (.ok ()) sampleSearch (fun _ => .ok "ans")
    { activeSessions := [], histories := emptyHistories }
    { question := none, sessionId := some "s" } "gen" "now" rfl

/-! ## Wiki ingestion and the namespace partition (unnamed/part_004) -/

/-- A Pinecone index, seen as its namespace partitions: each namespace
holds the list of documents stored under it. -/
abbrev PineconeIndex := String → List Doc

/-- The namespace the wiki ingestion script writes to
(`const namespace = "wiki"`, part_004 line 211). -/
def wikiIngestNamespace : String := "wiki"

/-- The namespace the RAG chain's vector store reads from
(`namespace: "wiki"`, enhanced-rag-chain.js line 205). -/
def ragChainNamespace : String := "wiki"

/-- `PineconeStore.fromDocuments(batch, embeddings, {pineconeIndex,
namespace, textKey})`: upsert the batch into one namespace partition,
leaving every other partition alone. -/
def pineconeFromDocuments (index : PineconeIndex) (batch : List Doc)
    (ns : String) : PineconeIndex :=
  fun s => if s = ns then index s ++ batch else index s

/-- The batching loop of `processWikiToPinecone` (part_004, lines
213-229): `for (let i = 0; i < documents.length; i += BATCH_SIZE)` with
`BATCH_SIZE = 100`, each slice stored under the wiki namespace. -/
def storeWikiBatches (index : PineconeIndex) (documents : List Doc) :
    PineconeIndex :=
  if h : documents = [] then index
  else
    storeWikiBatches
      (pineconeFromDocuments index (documents.take 100) wikiIngestNamespace)
      (documents.drop 100)
termination_by documents.length
decreasing_by
  have hpos : 0 < documents.length := List.length_pos.mpr h
  simp [List.length_drop]
  omega

/-- `processWikiToPinecone`'s effect on the index (part_004, lines
164-249): store every chunk, in batches, under the wiki namespace. -/
def processWikiToPinecone (index : PineconeIndex) (documents : List Doc) :
    PineconeIndex :=
  storeWikiBatches index documents

/-- The document partition `PineconeStore.fromExistingIndex(embeddings,
{pineconeIndex, namespace: "wiki", textKey})` searches over
(enhanced-rag-chain.js, lines 203-207). -/
def vectorStoreDocs (index : PineconeIndex) : List Doc :=
  index ragChainNamespace

lemma storeWikiBatches_apply :
    ∀ (n : Nat) (index : PineconeIndex) (documents : List Doc),
      documents.length ≤ n → ∀ s,
        storeWikiBatches index documents s =
          if s = wikiIngestNamespace then index s ++ documents else index s := by
  intro n
  induction n with
  | zero =>
    intro index documents hlen s
    have hnil : documents = [] := List.eq_nil_of_length_eq_zero (by omega)
    subst hnil
    rw [storeWikiBatches]
    simp
  | succ n ih =>
    intro index documents hlen s
    rw [storeWikiBatches]
    by_cases h : documents = []
    · subst h
      simp
    · rw [dif_neg h]
      have hpos : 0 < documents.length := List.length_pos.mpr h
      have hlen2 : (documents.drop 100).length ≤ n := by
        rw [List.length_drop]
        omega
      rw [ih _ _ hlen2 s]
      unfold pineconeFromDocuments
      by_cases hs : s = wikiIngestNamespace
      · rw [if_pos hs, if_pos hs, if_pos hs, List.append_assoc,
          List.take_append_drop]
      · rw [if_neg hs, if_neg hs, if_neg hs]

/-- C6: namespaces partition the collections.  The ingestion script
stores every chunk under "wiki", the chain's vector store is created over
the same namespace "wiki", so after ingestion the partition retrieval
reads is exactly the old wiki partition plus the ingested chunks — and
every other namespace is untouched. -/
theorem wiki_namespace_partition (index : PineconeIndex) (documents : List Doc) :
    ragChainNamespace = wikiIngestNamespace ∧
    vectorStoreDocs (processWikiToPinecone index documents) =
      index wikiIngestNamespace ++ documents ∧
    (∀ ns, ns ≠ wikiIngestNamespace →
      processWikiToPinecone index documents ns = index ns) := by
  refine ⟨rfl, ?_, ?_⟩
  · unfold vectorStoreDocs processWikiToPinecone
    rw [storeWikiBatches_apply documents.length index documents le_rfl]
    simp [ragChainNamespace, wikiIngestNamespace]
  · intro ns hns
    unfold processWikiToPinecone
    rw [storeWikiBatches_apply documents.length index documents le_rfl]
    rw [if_neg hns]

/-- Witness for C6 at a concrete empty index and one chunk. -/
theorem wiki_namespace_partition_witness :
    vectorStoreDocs (processWikiToPinecone (fun _ => []) [docA]) = [docA] ∧
    processWikiToPinecone (fun _ => []) [docA] "other" = [] := by
  have h := wiki_namespace_partition (fun _ => []) [docA]
  exact ⟨by rw [h.2.1]; rfl, h.2.2 "other" (by decide)⟩

end RagRepo
